import Mathlib

/-!
Verification of the document-structure checks in `final_verify.py` and
`verify_sections.py` (skills/ember-best-practices).

A document is its raw text, embedded as a `List Char`.  The Python scripts
work on the raw string with `re` patterns and substring tests (`in`); the
definitions below translate those operations directly:

* `re.findall(r'^PAT', content, re.MULTILINE)` for a newline-free anchored
  pattern matches exactly once at every line start where the pattern
  matches, so its length is embedded as `countAtLineStarts`, counting the
  line-start positions (the start of the text and every position after a
  newline) at which the pattern matches.
* Python's substring operator `in` is embedded as `containsStr`.
* `re.findall(r'## \d\. .+?\n\n\*\*Impact:\*\*', content, re.MULTILINE | re.DOTALL)`
  is embedded as a position-by-position scan (`scanImpact`): at each
  position try the pattern (header token, then a lazy nonempty gap in which
  `.` also matches newlines, then the literal marker); on success count one
  match and resume after it, on failure advance one character.  The fuel
  argument is the text length, which bounds the number of scan steps since
  every step consumes at least one character.

Each `print` of the scripts is modelled as one constructor of a structured
output line type (`OutLine`, `VLine`); the printed bytes are a function of
the constructor and its arguments, so equality of the structured outputs is
equality of the printed reports.
-/

/-- A single element of the regex patterns used by the census: a literal
character or the `\d` digit class (the documents are ASCII, so `\d` is
`Char.isDigit`). -/
inductive Tok
  | lit (c : Char)
  | digit
deriving DecidableEq

def tokMatches : Tok → Char → Bool
  | Tok.lit a, c => a == c
  | Tok.digit, c => c.isDigit

/-- Match a token pattern against a prefix of the text. -/
def matchToks : List Tok → List Char → Bool
  | [], _ => true
  | _ :: _, [] => false
  | tk :: ts, c :: cs => tokMatches tk c && matchToks ts cs

/-- The pattern `## \d\. ` of `final_verify.py` line 7. -/
def numHeadTok : List Tok :=
  [Tok.lit '#', Tok.lit '#', Tok.lit ' ', Tok.digit, Tok.lit '.', Tok.lit ' ']

/-- The pattern `## ` of `final_verify.py` line 11. -/
def headerTok : List Tok := [Tok.lit '#', Tok.lit '#', Tok.lit ' ']

/-- Python's substring test `needle in hay`. -/
def containsStr (needle : List Char) : List Char → Bool
  | [] => needle.isEmpty
  | c :: t => needle.isPrefixOf (c :: t) || containsStr needle t

/-- Count of the line-start positions (start of text, and after each
newline) other than the very first at which `f` accepts the remaining
text. -/
def countAtLineStartsGo (f : List Char → Bool) : List Char → Nat
  | [] => 0
  | c :: t => (if c = '\n' then (if f t then 1 else 0) else 0) + countAtLineStartsGo f t

/-- Count of all line-start positions at which `f` accepts the remaining
text: the semantics of `len(re.findall(...))` for `^`-anchored newline-free
patterns under `re.MULTILINE`. -/
def countAtLineStarts (f : List Char → Bool) (s : List Char) : Nat :=
  (if f s then 1 else 0) + countAtLineStartsGo f s

/-- True when the text is at a line end: exhausted or at a newline (the
semantics of `$` under `re.MULTILINE`). -/
def atLineEnd : List Char → Bool
  | [] => true
  | c :: _ => c == '\n'

namespace FinalVerify

/-- `sections = re.findall(r'^## \d\. ', content, re.MULTILINE)`, line 7;
the script reports `len(sections)`. -/
def sections (content : List Char) : Nat :=
  countAtLineStarts (matchToks numHeadTok) content

/-- `all_headers = re.findall(r'^## ', content, re.MULTILINE)`, line 11;
the script reports `len(all_headers)`. -/
def all_headers (content : List Char) : Nat :=
  countAtLineStarts (matchToks headerTok) content

/-- `"## Table of Contents" in content`, line 15. -/
def tocCheck (content : List Char) : Bool :=
  containsStr ("## Table of Contents".data) content

/-- `"**Version:**" in content and "**Organization:**" in content and
"**Date:**" in content`, line 19. -/
def metadataCheck (content : List Char) : Bool :=
  containsStr ("**Version:**".data) content
    && containsStr ("**Organization:**".data) content
    && containsStr ("**Date:**".data) content

/-- `"## Abstract" in content`, line 23. -/
def abstractCheck (content : List Char) : Bool :=
  containsStr ("## Abstract".data) content

/-- The literal tail `\n\n\*\*Impact:\*\*` of the section pattern on
line 27. -/
def impactTail : List Char := "\n\n**Impact:**".data

/-- The lazy `.+?\n\n\*\*Impact:\*\*` under `re.DOTALL`: consume at least
one arbitrary character (newlines included), then the literal tail at the
earliest possible position; returns how many characters the whole of
`.+?\n\n\*\*Impact:\*\*` consumed. -/
def findImpactLen : List Char → Option Nat
  | [] => none
  | _ :: t =>
    if impactTail.isPrefixOf t then some (1 + impactTail.length)
    else match findImpactLen t with
         | some n => some (n + 1)
         | none => none

/-- Try the full pattern `## \d\. .+?\n\n\*\*Impact:\*\*` at the current
position; `some n` is the length of the (lazy, hence shortest) match. -/
def matchAtLen (s : List Char) : Option Nat :=
  if matchToks numHeadTok s then
    match findImpactLen (s.drop numHeadTok.length) with
    | some n => some (numHeadTok.length + n)
    | none => none
  else none

/-- The `re.findall` scan for the section pattern: try the pattern at each
position, resume after a match, advance one character after a failure.
Every step consumes at least one character, so fuel `s.length` never runs
out before the text does. -/
def scanImpact : Nat → List Char → Nat
  | 0, _ => 0
  | _, [] => 0
  | fuel + 1, c :: t =>
    match matchAtLen (c :: t) with
    | some n => 1 + scanImpact fuel ((c :: t).drop n)
    | none => scanImpact fuel t

/-- `sections_with_metadata = len(re.findall(section_pattern, content,
re.MULTILINE | re.DOTALL))`, lines 27-28. -/
def sections_with_metadata (content : List Char) : Nat :=
  scanImpact content.length content

/-- The literal `---` of the pattern on line 32. -/
def hrPat : List Char := "---".data

/-- The anchored pattern `^---$` tried at one position: the literal, then a
line end. -/
def isHrAt (s : List Char) : Bool :=
  hrPat.isPrefixOf s && atLineEnd (s.drop hrPat.length)

/-- `horizontal_rules = len(re.findall(r'^---$', content, re.MULTILINE))`,
line 32. -/
def horizontal_rules (content : List Char) : Nat :=
  countAtLineStarts isHrAt content

/-- `lines = content.count('\n')`, line 36. -/
def lineCount (content : List Char) : Nat := content.count '\n'

/-- Python `str.rstrip`'s whitespace set. -/
def pySpace (c : Char) : Bool :=
  c == ' ' || c == '\t' || c == '\n' || c == '\r' || c == '\x0b' || c == '\x0c'

/-- Python `content.rstrip()`. -/
def rstrip (s : List Char) : List Char :=
  (s.reverse.dropWhile pySpace).reverse

/-- `content.rstrip().endswith(']') or 'Reference:' in content[-200:]`,
line 40. -/
def endsCheck (content : List Char) : Bool :=
  ((rstrip content).getLast? == some ']')
    || containsStr ("Reference:".data) (content.drop (content.length - 200))

/-- One printed line of `final_verify.py`, one constructor per `print`. -/
inductive OutLine
  | mainSections (n : Nat)
  | totalHeaders (n : Nat)
  | tocPresent
  | metadataPresent
  | abstractPresent
  | sectionsWithMetadata (n : Nat)
  | horizontalRules (n : Nat)
  | totalLines (n : Nat)
  | endsProper
  | banner
  | summaryHeader
  | summarySections (n : Nat)
  | summaryRules (n : Nat)
  | summaryLines (n : Nat)
  | summaryFormatted
deriving DecidableEq

/-- The lines printed by the checks of `final_verify.py` lines 7-41, in
program order; the conditional checks print only on success. -/
def censusReport (content : List Char) : List OutLine :=
  [OutLine.mainSections (sections content), OutLine.totalHeaders (all_headers content)]
    ++ (if tocCheck content then [OutLine.tocPresent] else [])
    ++ (if metadataCheck content then [OutLine.metadataPresent] else [])
    ++ (if abstractCheck content then [OutLine.abstractPresent] else [])
    ++ [OutLine.sectionsWithMetadata (sections_with_metadata content),
        OutLine.horizontalRules (horizontal_rules content),
        OutLine.totalLines (lineCount content)]
    ++ (if endsCheck content then [OutLine.endsProper] else [])

/-- The unconditional trailer of `final_verify.py` lines 43-48: the
completion banner and the summary, whose section and rule figures are the
literal constants 7 and 23 of the source. -/
def summaryTrailer (content : List Char) : List OutLine :=
  [OutLine.banner, OutLine.summaryHeader, OutLine.summarySections 7,
   OutLine.summaryRules 23, OutLine.summaryLines (lineCount content),
   OutLine.summaryFormatted]

/-- Everything `final_verify.py` prints, in order. -/
def finalVerifyOutput (content : List Char) : List OutLine :=
  censusReport content ++ summaryTrailer content

end FinalVerify

namespace VerifySections

/-- The `sections` dict of `verify_sections.py` lines 3-11: category name
to ordered list of expected rule titles (Python dicts preserve insertion
order). -/
def sections : List (List Char × List (List Char)) :=
  [("route".data,
     ["Use Route-Based Code Splitting".data,
      "Use Loading Substates for Better UX".data,
      "Parallel Data Loading in Model Hooks".data]),
   ("bundle".data,
     ["Avoid Importing Entire Addon Namespaces".data,
      "Use Embroider Static Mode".data,
      "Lazy Load Heavy Dependencies".data]),
   ("component".data,
     ["Use @cached for Expensive Getters".data,
      "Avoid Unnecessary Tracking".data,
      "Use Tracked Toolbox for Complex State".data,
      "Use Glimmer Components Over Classic Components".data]),
   ("a11y".data,
     ["Use ember-a11y-testing for Automated Checks".data,
      "Form Labels and Error Announcements".data,
      "Keyboard Navigation Support".data,
      "Announce Route Transitions to Screen Readers".data,
      "Semantic HTML and ARIA Attributes".data]),
   ("service".data,
     ["Cache API Responses in Services".data,
      "Optimize Ember Data Queries".data,
      "Use Services for Shared State".data]),
   ("template".data,
     ["Avoid Heavy Computation in Templates".data,
      "Use \x7b\x7b#each\x7d\x7d with @key for Lists".data,
      "Use \x7b\x7b#let\x7d\x7d to Avoid Recomputation".data]),
   ("advanced".data,
     ["Use Helpers for Template Logic".data,
      "Use Modifiers for DOM Side Effects".data])]

/-- All 23 expected titles, in catalog order. -/
def allRules : List (List Char) := (sections.map Prod.snd).flatten

/-- The sub-header rendering `f"## {rule}"` of a title, line 23. -/
def ruleHeader (r : List Char) : List Char := "## ".data ++ r

/-- The per-title test `f"## {rule}" in content`, line 23. -/
def ruleFound (content r : List Char) : Bool := containsStr (ruleHeader r) content

/-- The running aggregate `total_rules` of lines 19-26: over every category
and title in order, add one on each hit. -/
def total_rules (content : List Char) : Nat :=
  sections.foldl
    (fun acc q => q.2.foldl (fun b r => if ruleFound content r then b + 1 else b) acc) 0

/-- One printed line of `verify_sections.py`. -/
inductive VLine
  | intro
  | sep
  | categoryHeader (name : List Char) (count : Nat)
  | rule (title : List Char) (found : Bool)
  | total (found : Nat) (expected : Nat)
deriving DecidableEq

/-- Everything `verify_sections.py` prints, in order: the intro and
separator, then for each category its header and one line per title marked
found or missing, then the separator and the aggregate `N/23` total. -/
def verifySectionsOutput (content : List Char) : List VLine :=
  VLine.intro :: VLine.sep ::
    ((sections.map (fun q =>
        VLine.categoryHeader q.1 q.2.length ::
          q.2.map (fun r => VLine.rule r (ruleFound content r)))).flatten
      ++ [VLine.sep, VLine.total (total_rules content) 23])

end VerifySections

/-! ## Line-level view of a document

The spec states several census facts in terms of the document's lines; the
following definitions split the raw text at newlines, the way `^` and `$`
partition it under `re.MULTILINE`. -/

/-- The text up to (excluding) the first newline. -/
def firstLine : List Char → List Char
  | [] => []
  | c :: t => if c = '\n' then [] else c :: firstLine t

/-- The document's lines: maximal newline-free segments (`"a\nb"` has lines
`a` and `b`; a trailing newline opens one final empty line). -/
def linesOf : List Char → List (List Char)
  | [] => [[]]
  | c :: t =>
    if c = '\n' then [] :: linesOf t
    else match linesOf t with
         | [] => [[c]]
         | l :: ls => (c :: l) :: ls

/-- Modelled from the spec: "Count sections whose heading line is
immediately followed (after exactly one blank line) by a metadata-block
opening marker" — over the document's lines, count the numbered headings
whose next line is blank and whose line after that opens with
`**Impact:**`. -/
def specAdjacentImpact : List (List Char) → Nat
  | l1 :: l2 :: l3 :: rest =>
    (if matchToks numHeadTok l1 && l2.isEmpty && ("**Impact:**".data).isPrefixOf l3
     then 1 else 0) + specAdjacentImpact (l2 :: l3 :: rest)
  | _ => 0

/-! ## Bridge lemmas between the raw-text scan and the line view -/

theorem linesOf_ne_nil (s : List Char) : linesOf s ≠ [] := by
  cases s with
  | nil => simp [linesOf]
  | cons c t =>
    by_cases h : c = '\n'
    · simp [linesOf, h]
    · simp only [linesOf, if_neg h]
      cases linesOf t <;> simp

theorem linesOf_eq_firstLine_cons (s : List Char) :
    linesOf s = firstLine s :: (linesOf s).tail := by
  induction s with
  | nil => rfl
  | cons c t ih =>
    by_cases h : c = '\n'
    · simp [linesOf, firstLine, h]
    · simp only [linesOf, firstLine, if_neg h]
      rw [ih]
      rfl

theorem linesOf_cons_ne (c : Char) (t : List Char) (h : c ≠ '\n') :
    linesOf (c :: t) = (c :: firstLine t) :: (linesOf t).tail := by
  simp only [linesOf, if_neg h]
  rw [linesOf_eq_firstLine_cons t]
  rfl

theorem countAtLineStartsGo_eq_countP_tail (f g : List Char → Bool)
    (hfg : ∀ s, f s = g (firstLine s)) (s : List Char) :
    countAtLineStartsGo f s = ((linesOf s).tail).countP g := by
  induction s with
  | nil => simp [countAtLineStartsGo, linesOf]
  | cons c t ih =>
    by_cases h : c = '\n'
    · subst h
      have h1 : (linesOf t).countP g
          = (if g (firstLine t) then 1 else 0) + ((linesOf t).tail).countP g := by
        conv_lhs => rw [linesOf_eq_firstLine_cons t]
        rw [List.countP_cons]
        omega
      have h2 : linesOf ('\n' :: t) = [] :: linesOf t := by simp [linesOf]
      show (if ('\n' : Char) = '\n' then (if f t then 1 else 0) else 0)
          + countAtLineStartsGo f t = ((linesOf ('\n' :: t)).tail).countP g
      rw [if_pos rfl, h2, List.tail_cons, ih, hfg t, h1]
    · rw [linesOf_cons_ne c t h]
      simp only [countAtLineStartsGo, if_neg h, List.tail_cons]
      rw [ih]
      omega

theorem countAtLineStarts_eq_countP (f g : List Char → Bool)
    (hfg : ∀ s, f s = g (firstLine s)) (s : List Char) :
    countAtLineStarts f s = (linesOf s).countP g := by
  unfold countAtLineStarts
  rw [countAtLineStartsGo_eq_countP_tail f g hfg s, hfg s]
  conv_rhs => rw [linesOf_eq_firstLine_cons s]
  rw [List.countP_cons]
  omega

theorem matchToks_firstLine :
    ∀ ts : List Tok, (∀ tk ∈ ts, tokMatches tk '\n' = false) →
      ∀ s, matchToks ts s = matchToks ts (firstLine s) := by
  intro ts
  induction ts with
  | nil => intro _ s; rfl
  | cons tk ts' ih =>
    intro h s
    cases s with
    | nil => rfl
    | cons c t =>
      by_cases hc : c = '\n'
      · subst hc
        simp only [firstLine, if_pos rfl, matchToks]
        rw [h tk (by simp)]
        simp
      · simp only [firstLine, if_neg hc, matchToks]
        rw [ih (fun tk' h' => h tk' (by simp [h'])) t]

theorem prefixEol_eq_firstLine :
    ∀ p : List Char, '\n' ∉ p →
      ∀ s, (p.isPrefixOf s && atLineEnd (s.drop p.length)) = (firstLine s == p) := by
  intro p
  induction p with
  | nil =>
    intro _ s
    cases s with
    | nil => rfl
    | cons c t =>
      by_cases hc : c = '\n'
      · subst hc; simp [atLineEnd, firstLine]
      · rw [Bool.eq_iff_iff]
        simp [atLineEnd, firstLine, if_neg hc, hc]
  | cons a p' ih =>
    intro hp s
    cases s with
    | nil => simp [List.isPrefixOf, firstLine]
    | cons c t =>
      by_cases hc : c = '\n'
      · subst hc
        have ha : a ≠ '\n' := fun h => hp (by simp [h])
        rw [Bool.eq_iff_iff]
        simp only [List.isPrefixOf, firstLine, if_pos rfl]
        simp only [Bool.and_eq_true, beq_iff_eq]
        constructor
        · rintro ⟨⟨hxx, -⟩, -⟩; exact absurd hxx ha
        · intro hxx; exact absurd hxx.symm (by simp)
      · have h' : '\n' ∉ p' := fun h => hp (by simp [h])
        simp only [List.isPrefixOf, firstLine, if_neg hc, List.length_cons,
          List.drop_succ_cons]
        rw [Bool.and_assoc, ih h' t]
        rw [Bool.eq_iff_iff]
        simp only [Bool.and_eq_true, beq_iff_eq, List.cons.injEq]
        constructor
        · rintro ⟨h1, h2⟩; exact ⟨h1.symm, h2⟩
        · rintro ⟨h1, h2⟩; exact ⟨h1.symm, h2⟩

theorem countAtLineStartsGo_mono (f g : List Char → Bool)
    (h : ∀ s, f s = true → g s = true) (s : List Char) :
    countAtLineStartsGo f s ≤ countAtLineStartsGo g s := by
  induction s with
  | nil => exact Nat.le_refl _
  | cons c t ih =>
    simp only [countAtLineStartsGo]
    refine Nat.add_le_add ?_ ih
    by_cases hc : c = '\n'
    · simp only [if_pos hc]
      by_cases hf : f t
      · rw [if_pos hf, if_pos (h t hf)]
      · simp [hf]
    · simp [if_neg hc]

theorem countAtLineStarts_mono (f g : List Char → Bool)
    (h : ∀ s, f s = true → g s = true) (s : List Char) :
    countAtLineStarts f s ≤ countAtLineStarts g s := by
  unfold countAtLineStarts
  refine Nat.add_le_add ?_ (countAtLineStartsGo_mono f g h s)
  by_cases hf : f s
  · rw [if_pos hf, if_pos (h s hf)]
  · simp [hf]

theorem matchToks_of_append (p q : List Tok) :
    ∀ s, matchToks (p ++ q) s = true → matchToks p s = true := by
  induction p with
  | nil => intro s _; rfl
  | cons tk p' ih =>
    intro s h
    cases s with
    | nil => exact absurd h (by simp [matchToks])
    | cons c t =>
      simp only [List.cons_append, matchToks, Bool.and_eq_true] at h ⊢
      exact ⟨h.1, ih t h.2⟩

/-! ## Claim theorems -/

/-- Claim C2: for every document, the reported main-section count equals
the number of lines matching the numbered second-level header pattern
(`## ` followed by a single digit, a period, and a space); so it is `K`
for a document with exactly `K` such lines regardless of surrounding
content, and `0` for a document with none. -/
theorem c2_sections_counts_numbered_header_lines (content : List Char) :
    FinalVerify.sections content
      = (linesOf content).countP (matchToks numHeadTok) :=
  countAtLineStarts_eq_countP _ _
    (matchToks_firstLine numHeadTok (by decide)) content

/-- Claim C7: for every document, the reported horizontal-rule count equals
the number of lines that consist exactly of the separator token `---`,
including `0` when no such line is present. -/
theorem c7_horizontal_rules_counts_hr_lines (content : List Char) :
    FinalVerify.horizontal_rules content
      = (linesOf content).countP (fun l => l == FinalVerify.hrPat) :=
  countAtLineStarts_eq_countP _ _
    (prefixEol_eq_firstLine FinalVerify.hrPat (by decide)) content

/-- Claim C9: for every document, the reported main-section count is at
most the reported total header count, since every line matching the
numbered-header pattern also matches the generic `## ` pattern. -/
theorem c9_sections_le_all_headers (content : List Char) :
    FinalVerify.sections content ≤ FinalVerify.all_headers content :=
  countAtLineStarts_mono _ _
    (fun s hs => matchToks_of_append headerTok
      [Tok.digit, Tok.lit '.', Tok.lit ' '] s hs) content

theorem metadataPresent_mem_iff (content : List Char) :
    FinalVerify.OutLine.metadataPresent ∈ FinalVerify.finalVerifyOutput content
      ↔ FinalVerify.metadataCheck content = true := by
  unfold FinalVerify.finalVerifyOutput FinalVerify.censusReport
    FinalVerify.summaryTrailer
  split_ifs with h1 h2 h3 h4 <;> simp_all

theorem tocPresent_mem_iff (content : List Char) :
    FinalVerify.OutLine.tocPresent ∈ FinalVerify.finalVerifyOutput content
      ↔ FinalVerify.tocCheck content = true := by
  unfold FinalVerify.finalVerifyOutput FinalVerify.censusReport
    FinalVerify.summaryTrailer
  split_ifs with h1 h2 h3 h4 <;> simp_all

/-- A near-miss document whose table-of-contents heading differs from the
expected marker only in the capitalization of "Of". -/
def tocNearDoc : List Char :=
  "# Guide\n\n## Table Of Contents\n\n1. Intro\n".data

/-- Claim C6: the table-of-contents presence line is printed if and only if
the literal marker `## Table of Contents` occurs verbatim in the document;
a near-miss differing only in capitalization produces no report line.  (The
output type has no constructor for a missing table of contents, matching
the script, which prints nothing in that case.) -/
theorem c6_toc_line_iff_marker :
    (∀ content : List Char,
      (FinalVerify.OutLine.tocPresent ∈ FinalVerify.finalVerifyOutput content
        ↔ containsStr ("## Table of Contents".data) content = true))
    ∧ containsStr ("## Table Of Contents".data) tocNearDoc = true
    ∧ FinalVerify.OutLine.tocPresent ∉ FinalVerify.finalVerifyOutput tocNearDoc := by
  refine ⟨fun content => tocPresent_mem_iff content, by decide, ?_⟩
  rw [tocPresent_mem_iff tocNearDoc]
  decide

/-- A document carrying the organization and date labels but no version
label. -/
def noVersionDoc : List Char :=
  "**Organization:** Acme\n**Date:** 2025-01-01\n".data

/-- A document carrying the version and date labels but no organization
label. -/
def noOrgDoc : List Char :=
  "**Version:** 1.0\n**Date:** 2025-01-01\n".data

/-- A document carrying the version and organization labels but no date
label. -/
def noDateDoc : List Char :=
  "**Version:** 1.0\n**Organization:** Acme\n".data

/-- Claim C5: the metadata success line is emitted if and only if all three
literal label substrings (`**Version:**`, `**Organization:**`, `**Date:**`)
are present in the document; in particular each of three documents missing
exactly one label gets no metadata output line at all.  (The output type
has no other metadata constructor, matching the script, which prints
nothing when a label is absent.) -/
theorem c5_metadata_line_iff_labels :
    (∀ content : List Char,
      (FinalVerify.OutLine.metadataPresent ∈ FinalVerify.finalVerifyOutput content
        ↔ (containsStr ("**Version:**".data) content = true
            ∧ containsStr ("**Organization:**".data) content = true
            ∧ containsStr ("**Date:**".data) content = true)))
    ∧ FinalVerify.OutLine.metadataPresent ∉ FinalVerify.finalVerifyOutput noVersionDoc
    ∧ FinalVerify.OutLine.metadataPresent ∉ FinalVerify.finalVerifyOutput noOrgDoc
    ∧ FinalVerify.OutLine.metadataPresent ∉ FinalVerify.finalVerifyOutput noDateDoc := by
  have hiff : ∀ content : List Char,
      (FinalVerify.OutLine.metadataPresent ∈ FinalVerify.finalVerifyOutput content
        ↔ (containsStr ("**Version:**".data) content = true
            ∧ containsStr ("**Organization:**".data) content = true
            ∧ containsStr ("**Date:**".data) content = true)) := by
    intro content
    rw [metadataPresent_mem_iff content]
    unfold FinalVerify.metadataCheck
    simp only [Bool.and_eq_true]
    tauto
  refine ⟨hiff, ?_, ?_, ?_⟩ <;> rw [hiff] <;> decide

/-- Claim C10: the census always ends with the fixed completion banner and
the summary lines whose section and rule figures are the literal constants
7 and 23 — for every input document, independently of the counts the scan
computed. -/
theorem c10_summary_constant (content : List Char) :
    ∃ pre, FinalVerify.finalVerifyOutput content
      = pre ++ [FinalVerify.OutLine.banner, FinalVerify.OutLine.summaryHeader,
          FinalVerify.OutLine.summarySections 7, FinalVerify.OutLine.summaryRules 23,
          FinalVerify.OutLine.summaryLines (FinalVerify.lineCount content),
          FinalVerify.OutLine.summaryFormatted] :=
  ⟨FinalVerify.censusReport content, rfl⟩

/-- A document with one numbered heading whose `**Impact:**` block appears
only after an intervening line of body text, not directly after the
heading. -/
def c1Doc : List Char := "## 1. A\nmiddle\n\n**Impact:** x".data

/-- Counterexample to claim C1 as stated: on `c1Doc` the script counts one
section with metadata (the lazy `.+?` under `re.DOTALL` spans the
intervening line), while the number of numbered headings followed after
exactly one blank line by `**Impact:**` is zero. -/
theorem c1_counterexample_nonadjacent_counted :
    FinalVerify.sections_with_metadata c1Doc = 1
      ∧ specAdjacentImpact (linesOf c1Doc) = 0 := by decide

theorem findImpactLen_at_end (mid : List Char) :
    mid ≠ [] →
    (∀ k, k < mid.length → 0 < k →
      FinalVerify.impactTail.isPrefixOf
        ((mid ++ FinalVerify.impactTail).drop k) = false) →
    FinalVerify.findImpactLen (mid ++ FinalVerify.impactTail)
      = some (mid.length + FinalVerify.impactTail.length) := by
  induction mid with
  | nil => intro h _; exact absurd rfl h
  | cons c rest ih =>
    intro _ h2
    cases rest with
    | nil =>
      show FinalVerify.findImpactLen (c :: FinalVerify.impactTail) = _
      rw [FinalVerify.findImpactLen]
      rw [if_pos (by decide : FinalVerify.impactTail.isPrefixOf
        FinalVerify.impactTail = true)]
      rfl
    | cons d rest' =>
      have hk1 : FinalVerify.impactTail.isPrefixOf
          (((d :: rest') ++ FinalVerify.impactTail)) = false := by
        have := h2 1 (by simp) (by omega)
        rwa [List.cons_append, List.drop_succ_cons, List.drop_zero] at this
      have hrec : FinalVerify.findImpactLen
          ((d :: rest') ++ FinalVerify.impactTail)
          = some ((d :: rest').length + FinalVerify.impactTail.length) := by
        refine ih (by simp) ?_
        intro k hk hk0
        have := h2 (k + 1) (by simp at hk ⊢; omega) (by omega)
        rwa [List.cons_append, List.drop_succ_cons] at this
      show FinalVerify.findImpactLen
        (c :: ((d :: rest') ++ FinalVerify.impactTail)) = _
      rw [FinalVerify.findImpactLen,
        if_neg (by rw [hk1]; exact Bool.false_ne_true), hrec]
      show some ((d :: rest').length + FinalVerify.impactTail.length + 1)
        = some ((c :: d :: rest').length + FinalVerify.impactTail.length)
      congr 1

theorem scanImpact_nil (fuel : Nat) : FinalVerify.scanImpact fuel [] = 0 := by
  cases fuel <;> rfl

/-- Claim C1 (amended): adjacency is not required.  For any document of the
form numbered heading token, then a nonempty stretch `mid` of arbitrary
characters (newlines included) not containing an early occurrence of the
`\n\n**Impact:**` marker, then that marker, the script counts exactly one
section with metadata — even when `mid` spans several lines, so the marker
is not directly after the heading line. -/
theorem c1_amended_lazy_dotall_count (mid : List Char) :
    mid ≠ [] →
    (∀ k, k < mid.length → 0 < k →
      FinalVerify.impactTail.isPrefixOf
        ((mid ++ FinalVerify.impactTail).drop k) = false) →
    FinalVerify.sections_with_metadata
      ("## 1. ".data ++ mid ++ FinalVerify.impactTail) = 1 := by
  intro h1 h2
  have hhead : matchToks numHeadTok
      ("## 1. ".data ++ (mid ++ FinalVerify.impactTail)) = true := rfl
  have hdrop : (("## 1. ".data ++ (mid ++ FinalVerify.impactTail)).drop
      numHeadTok.length) = mid ++ FinalVerify.impactTail := by
    have : numHeadTok.length = ("## 1. ".data).length := rfl
    rw [this, List.drop_left]
  have hmatch : FinalVerify.matchAtLen
      ("## 1. ".data ++ (mid ++ FinalVerify.impactTail))
      = some (numHeadTok.length
          + (mid.length + FinalVerify.impactTail.length)) := by
    unfold FinalVerify.matchAtLen
    rw [if_pos hhead, hdrop, findImpactLen_at_end mid h1 h2]
  have hlen : ("## 1. ".data ++ (mid ++ FinalVerify.impactTail)).length
      = numHeadTok.length + (mid.length + FinalVerify.impactTail.length) := by
    rw [show numHeadTok.length = ("## 1. ".data).length from rfl]
    simp [List.length_append]
    omega
  unfold FinalVerify.sections_with_metadata
  rw [List.append_assoc]
  generalize hdoc : "## 1. ".data ++ (mid ++ FinalVerify.impactTail) = doc at *
  cases doc with
  | nil =>
    rw [show numHeadTok.length = 6 from rfl] at hlen
    simp at hlen
    omega
  | cons c t =>
    have hfuel : (c :: t).length = t.length + 1 := by simp
    rw [hfuel]
    show FinalVerify.scanImpact (t.length + 1) (c :: t) = 1
    rw [FinalVerify.scanImpact, hmatch]
    have hdropall : (c :: t).drop (numHeadTok.length
        + (mid.length + FinalVerify.impactTail.length)) = [] := by
      rw [← hlen]
      exact List.drop_length _
    show 1 + FinalVerify.scanImpact t.length ((c :: t).drop
      (numHeadTok.length + (mid.length + FinalVerify.impactTail.length))) = 1
    rw [hdropall, scanImpact_nil]

/-- Witness for the amended claim C1 at a concrete document whose Impact
marker sits two lines below the heading: `## 1. Title`, a body line, a
blank line, then `**Impact:**` — counted once. -/
theorem c1_amended_lazy_dotall_count_witness :
    FinalVerify.sections_with_metadata
      ("## 1. ".data ++ "Title\nSome body".data ++ FinalVerify.impactTail) = 1 :=
  c1_amended_lazy_dotall_count ("Title\nSome body".data) (by decide) (by decide)

theorem foldl_count_inner (p : List Char → Bool) (rs : List (List Char)) :
    ∀ a : Nat, rs.foldl (fun b r => if p r then b + 1 else b) a = a + rs.countP p := by
  induction rs with
  | nil => intro a; simp
  | cons r rs' ih =>
    intro a
    rw [List.foldl_cons, ih, List.countP_cons]
    by_cases h : p r = true
    · rw [if_pos h, if_pos h]
      omega
    · rw [if_neg h, if_neg h]
      omega

theorem foldl_count_outer (p : List Char → Bool) :
    ∀ (d : List (List Char × List (List Char))) (a : Nat),
      d.foldl (fun acc q => q.2.foldl (fun b r => if p r then b + 1 else b) acc) a
        = a + ((d.map Prod.snd).flatten).countP p := by
  intro d
  induction d with
  | nil => intro a; simp
  | cons q d' ih =>
    intro a
    rw [List.foldl_cons, ih, foldl_count_inner]
    simp [List.countP_append]
    omega

theorem total_rules_eq_countP (content : List Char) :
    VerifySections.total_rules content
      = VerifySections.allRules.countP (VerifySections.ruleFound content) := by
  unfold VerifySections.total_rules VerifySections.allRules
  rw [foldl_count_outer]
  omega

theorem rule_mem_output_iff (content r : List Char) (b : Bool) :
    VerifySections.VLine.rule r b ∈ VerifySections.verifySectionsOutput content
      ↔ (r ∈ VerifySections.allRules ∧ b = VerifySections.ruleFound content r) := by
  unfold VerifySections.verifySectionsOutput VerifySections.allRules
  constructor
  · intro h
    simp only [List.mem_cons, List.mem_append, List.mem_flatten, List.mem_map,
      List.not_mem_nil, or_false] at h
    rcases h with h | h | ⟨l, ⟨q, hq, hql⟩, hl⟩ | h | h
    · exact absurd h (by simp)
    · exact absurd h (by simp)
    · subst hql
      simp only [List.mem_cons, List.mem_map] at hl
      rcases hl with h | ⟨r', hr', h⟩
      · exact absurd h (by simp)
      · obtain ⟨h1, h2⟩ := VerifySections.VLine.rule.inj h
        subst h1
        exact ⟨List.mem_flatten.2 ⟨q.2, List.mem_map.2 ⟨q, hq, rfl⟩, hr'⟩, h2.symm⟩
    · exact absurd h (by simp)
    · exact absurd h (by simp)
  · rintro ⟨hr, rfl⟩
    rcases List.mem_flatten.1 hr with ⟨l, hlmem, hrl⟩
    rcases List.mem_map.1 hlmem with ⟨q, hq, rfl⟩
    refine List.mem_cons.2 (Or.inr (List.mem_cons.2 (Or.inr (List.mem_append.2
      (Or.inl (List.mem_flatten.2 ⟨VerifySections.VLine.categoryHeader q.1 q.2.length ::
        q.2.map (fun r => VerifySections.VLine.rule r (VerifySections.ruleFound content r)),
        List.mem_map.2 ⟨q, hq, rfl⟩, ?_⟩))))))
    exact List.mem_cons.2 (Or.inr (List.mem_map.2 ⟨r, hrl, rfl⟩))

/-- Claim C3: applied to a document containing every expected title
rendered as a sub-header, the catalog check reports an aggregate found
count of 23 (the fixed total across all seven categories) and marks no
title missing. -/
theorem c3_all_titles_found (content : List Char)
    (h : ∀ r ∈ VerifySections.allRules,
      VerifySections.ruleFound content r = true) :
    VerifySections.total_rules content = 23
      ∧ ∀ r b, VerifySections.VLine.rule r b
          ∈ VerifySections.verifySectionsOutput content → b = true := by
  constructor
  · rw [total_rules_eq_countP, List.countP_eq_length.mpr h]
    rfl
  · intro r b hb
    obtain ⟨hr, hb2⟩ := (rule_mem_output_iff content r b).1 hb
    subst hb2
    exact h r hr

/-- A document consisting of the 23 expected sub-headers, one per line. -/
def fullDoc : List Char :=
  (VerifySections.allRules.map
    (fun r => VerifySections.ruleHeader r ++ ['\n'])).flatten

set_option maxRecDepth 400000 in
theorem c3_all_titles_found_witness :
    VerifySections.total_rules fullDoc = 23 :=
  (c3_all_titles_found fullDoc (by decide)).1

/-- Claim C4 (amended): the catalog check applies exact substring matching
with no normalization and never halts: every title of every category is
always reported, marked found exactly when its sub-header rendering occurs
verbatim as a substring of the document.  So an alteration that removes the
rendering from the document (for example punctuation inserted inside the
title) is reported missing while every other title is still checked and
reported; a purely trailing addition after the rendered heading leaves the
title reported found, because the rendering is still a substring. -/
theorem c4_every_title_reported (content : List Char) :
    ∀ r ∈ VerifySections.allRules,
      VerifySections.VLine.rule r (VerifySections.ruleFound content r)
          ∈ VerifySections.verifySectionsOutput content
        ∧ ∀ b, VerifySections.VLine.rule r b
            ∈ VerifySections.verifySectionsOutput content
            → b = VerifySections.ruleFound content r := by
  intro r hr
  constructor
  · exact (rule_mem_output_iff content r _).2 ⟨hr, rfl⟩
  · intro b hb
    exact ((rule_mem_output_iff content r b).1 hb).2

/-- The 23 sub-headers with exactly one title textually altered inside (a
comma inserted into "Use Embroider Static Mode"), so its exact rendering no
longer occurs anywhere in the document. -/
def alteredDoc : List Char :=
  (VerifySections.allRules.map (fun r =>
    (if r = "Use Embroider Static Mode".data
     then "## Use Embroider, Static Mode\n".data
     else VerifySections.ruleHeader r ++ ['\n']))).flatten

set_option maxRecDepth 400000 in
theorem c4_every_title_reported_witness :
    VerifySections.VLine.rule ("Use Embroider Static Mode".data) false
      ∈ VerifySections.verifySectionsOutput alteredDoc := by
  have h := (c4_every_title_reported alteredDoc
    ("Use Embroider Static Mode".data) (by decide)).1
  rw [show VerifySections.ruleFound alteredDoc
    ("Use Embroider Static Mode".data) = false from by decide] at h
  exact h

/-- The 23 sub-headers with exactly one title altered by a purely trailing
addition: `!!!` appended after the heading for "Use Modifiers for DOM Side
Effects". -/
def trailingDoc : List Char :=
  (VerifySections.allRules.map (fun r =>
    VerifySections.ruleHeader r ++
      (if r = "Use Modifiers for DOM Side Effects".data
       then "!!!\n".data else ['\n']))).flatten

set_option maxRecDepth 400000 in
/-- Counterexample to claim C4 as stated: in `trailingDoc` exactly one
expected title is textually altered by adding trailing punctuation to its
heading, yet that title is reported found, not missing — substring
containment ignores what follows the rendered heading. -/
theorem c4_counterexample_trailing_punct_found :
    VerifySections.VLine.rule ("Use Modifiers for DOM Side Effects".data) true
        ∈ VerifySections.verifySectionsOutput trailingDoc
      ∧ VerifySections.VLine.rule
          ("Use Modifiers for DOM Side Effects".data) false
          ∉ VerifySections.verifySectionsOutput trailingDoc := by decide

/-- Claim C8: both passes are deterministic pure functions of the document
text and the fixed (compiled-in) schema: two runs over the same text
produce identical reports.  In this embedding both outputs are functions of
the text alone, so the property is the congruence of those functions. -/
theorem c8_outputs_deterministic (d1 d2 : List Char) (h : d1 = d2) :
    FinalVerify.finalVerifyOutput d1 = FinalVerify.finalVerifyOutput d2
      ∧ VerifySections.verifySectionsOutput d1
        = VerifySections.verifySectionsOutput d2 := by
  subst h
  exact ⟨rfl, rfl⟩

theorem c8_outputs_deterministic_witness :
    FinalVerify.finalVerifyOutput c1Doc = FinalVerify.finalVerifyOutput c1Doc
      ∧ VerifySections.verifySectionsOutput c1Doc
        = VerifySections.verifySectionsOutput c1Doc :=
  c8_outputs_deterministic c1Doc c1Doc rfl
